import Mathlib

/-!
Verification of the hdnode signing proxy (Rust sources under src/).

This development shallowly embeds the parts of the program that the
claims are about:

* the JSON-RPC codec of src/jsonrpc.rs (requests, responses, ids,
  params, errors, and the hand-written serialize/deserialize
  implementations for Response);
* the HTTP JSON-RPC client (Client::execute / Client::execute_many),
  with the transport and the remote server abstracted as a function
  from the posted JSON body to the replied JSON body;
* the dispatcher of src/node.rs (handler, Node::handle_request,
  Node::handle_requests, Node::mux) with the typed per-method handler
  (mux_handler) abstracted as a function, plus concrete embeddings of
  the decisive typed handler arms;
* the transaction filler of src/node/transaction.rs together with the
  batched Ethereum calls of src/node/eth.rs, with the upstream's
  answers to the batched calls given as an explicit environment;
* the signer stack of src/signer.rs, src/signer/log_recorder.rs and
  src/signer/validator.rs.

Machine integers: Ethereum quantities (Rust ethnum::U256) are modelled
as Nat with an explicit `% 2 ^ 256` where the code performs arithmetic;
JSON numbers (serde_json::Number) are modelled as Rat.  Rust panics
(out-of-bounds indexing, Option::unwrap, Iterator-expect) are modelled
as a distinguished outcome, separate from recoverable errors.
-/

/-- A JSON document (serde_json::Value): null, booleans, numbers,
strings, arrays and objects.  Objects keep the field order of the
document, as serde_json does when iterating maps for struct
deserialization. -/
inductive JsonValue where
  | null
  | bool (b : Bool)
  | num (q : Rat)
  | str (s : String)
  | arr (xs : List JsonValue)
  | obj (fields : List (String × JsonValue))

/-- Whether a JSON value is null. -/
def JsonValue.isNull : JsonValue → Bool
  | .null => true
  | _ => false

/-- First value of a field in an object field list (serde reads fields
in order; the codecs below reject duplicate occurrences of the fields
they know, so the first occurrence is the only one on any accepted
document). -/
def JsonValue.lookupField (fields : List (String × JsonValue)) (k : String) :
    Option JsonValue :=
  List.lookup k fields

/-- Number of occurrences of a field name in an object field list. -/
def JsonValue.keyCount (fields : List (String × JsonValue)) (k : String) : Nat :=
  fields.countP (fun p => p.1 = k)

/-- Whether an object field list carries a field of the given name. -/
def JsonValue.hasKey (fields : List (String × JsonValue)) (k : String) : Bool :=
  fields.any (fun p => p.1 = k)

/-- A required struct field: present exactly once (serde's derived
deserializers fail on a missing and on a duplicate field). -/
def JsonValue.fieldOnce (fields : List (String × JsonValue)) (k : String) :
    Except String JsonValue :=
  match JsonValue.keyCount fields k, JsonValue.lookupField fields k with
  | 1, some v => .ok v
  | 0, _ => .error ("missing field " ++ k)
  | _, _ => .error ("duplicate field " ++ k)

/-- An optional struct field: absent, or present exactly once. -/
def JsonValue.fieldAtMostOnce (fields : List (String × JsonValue)) (k : String) :
    Except String (Option JsonValue) :=
  match JsonValue.keyCount fields k, JsonValue.lookupField fields k with
  | 0, _ => .ok none
  | 1, some v => .ok (some v)
  | _, _ => .error ("duplicate field " ++ k)

/-- JSON RPC version (jsonrpc::JsonRpc): only "2.0". -/
inductive Jsonrpc.JsonRpc where
  | v2
  deriving DecidableEq

/-- JSON RPC message identifier (jsonrpc::Id): a string, a number or
null. -/
inductive Jsonrpc.Id where
  | string (s : String)
  | number (n : Rat)
  | null
  deriving DecidableEq

/-- JSON RPC params (jsonrpc::Params): by-position array or by-name
object. -/
inductive Jsonrpc.Params where
  | array (xs : List JsonValue)
  | object (fields : List (String × JsonValue))

/-- impl From<Params> for Value. -/
def Jsonrpc.Params.toValue : Jsonrpc.Params → JsonValue
  | .array xs => .arr xs
  | .object fields => .obj fields

/-- JSON RPC error object (jsonrpc::Error). -/
structure Jsonrpc.Error where
  code : Int
  message : String
  data : Option JsonValue

/-- jsonrpc::Error::invalid_params. -/
def Jsonrpc.Error.invalidParams : Jsonrpc.Error :=
  ⟨-32602, "Invalid params", none⟩

/-- jsonrpc::Error::internal_error. -/
def Jsonrpc.Error.internalError : Jsonrpc.Error :=
  ⟨-32603, "Internal error", none⟩

/-- Modelled from the spec: jsonrpc::Error::invalid_request, called in
node.rs but not defined in the sources under src/.  The spec assigns
code -32600 to invalid requests. -/
def Jsonrpc.Error.invalidRequest : Jsonrpc.Error :=
  ⟨-32600, "Invalid request", none⟩

/-- JSON RPC request (jsonrpc::Request). -/
structure Jsonrpc.Request where
  jsonrpc : Jsonrpc.JsonRpc
  method : String
  params : Option Jsonrpc.Params
  id : Jsonrpc.Id

/-- JSON RPC response (jsonrpc::Response): a result or an error. -/
structure Jsonrpc.Response where
  jsonrpc : Jsonrpc.JsonRpc
  result : Except Jsonrpc.Error JsonValue
  id : Jsonrpc.Id

/-- Serialization of ids (derived, untagged). -/
def Jsonrpc.Id.toJson : Jsonrpc.Id → JsonValue
  | .string s => .str s
  | .number n => .num n
  | .null => .null

/-- Deserialization of ids (derived, untagged): a string, a number or
null; anything else fails. -/
def Jsonrpc.Id.fromJson : JsonValue → Except String Jsonrpc.Id
  | .str s => .ok (.string s)
  | .num n => .ok (.number n)
  | .null => .ok .null
  | _ => .error "data did not match any variant of untagged enum Id"

/-- Deserialization of the version tag: the string "2.0" only. -/
def Jsonrpc.JsonRpc.fromJson : JsonValue → Except String Jsonrpc.JsonRpc
  | .str s => if s = "2.0" then .ok .v2 else .error "unknown variant"
  | _ => .error "expected string"

/-- Serialization of error objects (derived; `data` omitted when
absent). -/
def Jsonrpc.Error.toJson (e : Jsonrpc.Error) : JsonValue :=
  .obj ([("code", .num (e.code : Rat)), ("message", .str e.message)] ++
    match e.data with
    | some d => [("data", d)]
    | none => [])

/-- Deserialization of error objects (derived): integer `code` and
string `message` required, `data` optional with null read as absent,
unknown fields ignored. -/
def Jsonrpc.Error.fromJson : JsonValue → Except String Jsonrpc.Error
  | .obj fields => do
    let c ← JsonValue.fieldOnce fields "code"
    let code ← match c with
      | .num q => if q.den = 1 then .ok q.num else .error "invalid type: not an integer"
      | _ => .error "invalid type: expected integer code"
    let m ← JsonValue.fieldOnce fields "message"
    let message ← match m with
      | .str s => Except.ok s
      | _ => Except.error "invalid type: expected string message"
    let dOpt ← JsonValue.fieldAtMostOnce fields "data"
    let data := dOpt.bind (fun v => if v.isNull then none else some v)
    pure ⟨code, message, data⟩
  | _ => .error "invalid type: expected object"

/-- Helper struct for the hand-written Response codec (jsonrpc::Res):
an optional `result` member and an optional `error` member. -/
structure Jsonrpc.Res where
  jsonrpc : Jsonrpc.JsonRpc
  result : Option JsonValue
  error : Option Jsonrpc.Error
  id : Jsonrpc.Id

/-- impl Serialize for Response: serialize through Res, with the absent
arm omitted (skip_serializing_if Option::is_none). -/
def Jsonrpc.Response.toJson (r : Jsonrpc.Response) : JsonValue :=
  .obj ([("jsonrpc", .str "2.0")] ++
    (match r.result with
     | .ok v => [("result", v)]
     | .error e => [("error", Jsonrpc.Error.toJson e)]) ++
    [("id", r.id.toJson)])

/-- Derived deserialization of Res: `jsonrpc` and `id` required exactly
once, `result` and `error` optional with a null member read as None
(serde deserializes Option fields from null to None), unknown fields
ignored, duplicate known fields rejected. -/
def Jsonrpc.Res.fromJson : JsonValue → Except String Jsonrpc.Res
  | .obj fields => do
    let jv ← JsonValue.fieldOnce fields "jsonrpc"
    let jsonrpc ← Jsonrpc.JsonRpc.fromJson jv
    let rOpt ← JsonValue.fieldAtMostOnce fields "result"
    let result := rOpt.bind (fun v => if v.isNull then none else some v)
    let eOpt ← JsonValue.fieldAtMostOnce fields "error"
    let error ← match eOpt with
      | none => pure none
      | some v =>
        if v.isNull then pure none
        else (Jsonrpc.Error.fromJson v).map some
    let iv ← JsonValue.fieldOnce fields "id"
    let id ← Jsonrpc.Id.fromJson iv
    pure ⟨jsonrpc, result, error, id⟩
  | _ => .error "invalid type: expected object"

/-- impl Deserialize for Response (jsonrpc.rs lines 227-245): exactly
one of the decoded `result`/`error` slots must be filled. -/
def Jsonrpc.Response.fromJson (j : JsonValue) : Except String Jsonrpc.Response :=
  match Jsonrpc.Res.fromJson j with
  | .error e => .error e
  | .ok res =>
    match res.result, res.error with
    | some r, none => .ok ⟨res.jsonrpc, .ok r, res.id⟩
    | none, some e => .ok ⟨res.jsonrpc, .error e, res.id⟩
    | some _, some _ => .error "both result and error specified"
    | none, none => .error "missing result or error"

/-- Serialization of requests (derived): field order jsonrpc, method,
params, id; absent params serialize as null (no skip attribute on the
field). -/
def Jsonrpc.Request.toJson (r : Jsonrpc.Request) : JsonValue :=
  .obj [("jsonrpc", .str "2.0"), ("method", .str r.method),
    ("params", match r.params with
      | some p => p.toValue
      | none => .null),
    ("id", r.id.toJson)]

/-- Deserialization of params (derived, untagged): an array or an
object; anything else fails. -/
def Jsonrpc.Params.fromJson : JsonValue → Except String Jsonrpc.Params
  | .arr xs => .ok (.array xs)
  | .obj fields => .ok (.object fields)
  | _ => .error "data did not match any variant of untagged enum Params"

/-- Deserialization of requests (derived): `jsonrpc`, `method` and `id`
required exactly once, `params` an optional array-or-object field with
null read as absent, unknown fields ignored. -/
def Jsonrpc.Request.fromJson : JsonValue → Except String Jsonrpc.Request
  | .obj fields => do
    let jv ← JsonValue.fieldOnce fields "jsonrpc"
    let jsonrpc ← Jsonrpc.JsonRpc.fromJson jv
    let mv ← JsonValue.fieldOnce fields "method"
    let method ← match mv with
      | .str s => Except.ok s
      | _ => Except.error "invalid type: expected string method"
    let pOpt ← JsonValue.fieldAtMostOnce fields "params"
    let params ← match pOpt with
      | none => pure none
      | some v =>
        if v.isNull then pure none
        else (Jsonrpc.Params.fromJson v).map some
    let iv ← JsonValue.fieldOnce fields "id"
    let id ← Jsonrpc.Id.fromJson iv
    pure ⟨jsonrpc, method, params, id⟩
  | _ => .error "invalid type: expected object"

/-- Whether an object field list carries the given member with a
non-null value (serde's Option fields read a null member as absent). -/
def JsonValue.memberNonNull (fields : List (String × JsonValue)) (k : String) : Bool :=
  match JsonValue.lookupField fields k with
  | some v => !v.isNull
  | none => false

theorem lookupField_eq_none_of_keyCount_zero
    (fields : List (String × JsonValue)) (k : String)
    (h : JsonValue.keyCount fields k = 0) :
    JsonValue.lookupField fields k = none := by
  induction fields with
  | nil => rfl
  | cons p rest ih =>
    rw [JsonValue.keyCount, List.countP_cons] at h
    rw [JsonValue.lookupField, List.lookup]
    by_cases hk : p.1 = k
    · simp [hk] at h
    · have hne : (k == p.1) = false := by
        simp [← ne_eq] at hk ⊢
        exact fun he => hk he.symm
      rw [hne]
      apply ih
      rw [JsonValue.keyCount]
      simpa [hk] using h

theorem fieldAtMostOnce_ok (fields : List (String × JsonValue)) (k : String)
    (o : Option JsonValue) (h : JsonValue.fieldAtMostOnce fields k = .ok o) :
    o = JsonValue.lookupField fields k := by
  unfold JsonValue.fieldAtMostOnce at h
  rcases hc : JsonValue.keyCount fields k with _ | n
  · rw [hc] at h
    simp at h
    rw [← h, lookupField_eq_none_of_keyCount_zero fields k hc]
  · rcases hl : JsonValue.lookupField fields k with _ | v <;> rw [hc, hl] at h
    · rcases n with _ | m <;> simp at h
    · rcases n with _ | m
      · simp at h
        exact h.symm
      · simp at h

theorem resFromJson_slots (fields : List (String × JsonValue)) (res : Jsonrpc.Res)
    (h : Jsonrpc.Res.fromJson (.obj fields) = .ok res) :
    res.result = (JsonValue.lookupField fields "result").bind
      (fun v => if v.isNull then none else some v) ∧
    res.error.isSome = JsonValue.memberNonNull fields "error" := by
  rcases hjv : JsonValue.fieldOnce fields "jsonrpc" with e | jv
  · simp [Jsonrpc.Res.fromJson, hjv, Bind.bind, Except.bind, pure, Except.pure] at h
  rcases hjr : Jsonrpc.JsonRpc.fromJson jv with e | ver
  · simp [Jsonrpc.Res.fromJson, hjv, hjr, Bind.bind, Except.bind, pure, Except.pure] at h
  rcases hres : JsonValue.fieldAtMostOnce fields "result" with e | rOpt
  · simp [Jsonrpc.Res.fromJson, hjv, hjr, hres, Bind.bind, Except.bind, pure, Except.pure] at h
  rcases herr : JsonValue.fieldAtMostOnce fields "error" with e | eOpt
  · simp [Jsonrpc.Res.fromJson, hjv, hjr, hres, herr, Bind.bind, Except.bind, pure, Except.pure] at h
  rcases hiv : JsonValue.fieldOnce fields "id" with e | iv
  · rcases eOpt with _ | ev
    · simp [Jsonrpc.Res.fromJson, hjv, hjr, hres, herr, hiv, Bind.bind, Except.bind, pure, Except.pure] at h
    · rcases hnull : ev.isNull with _ | _
      · rcases hef : Jsonrpc.Error.fromJson ev with e2 | eo <;>
          simp [Jsonrpc.Res.fromJson, hjv, hjr, hres, herr, hiv, hnull, hef,
            Bind.bind, Except.bind, pure, Except.pure, Except.map] at h
      · simp [Jsonrpc.Res.fromJson, hjv, hjr, hres, herr, hiv, hnull,
          Bind.bind, Except.bind, pure, Except.pure] at h
  rcases hid : Jsonrpc.Id.fromJson iv with e | idv
  · rcases eOpt with _ | ev
    · simp [Jsonrpc.Res.fromJson, hjv, hjr, hres, herr, hiv, hid, Bind.bind, Except.bind, pure, Except.pure] at h
    · rcases hnull : ev.isNull with _ | _
      · rcases hef : Jsonrpc.Error.fromJson ev with e2 | eo <;>
          simp [Jsonrpc.Res.fromJson, hjv, hjr, hres, herr, hiv, hid, hnull, hef,
            Bind.bind, Except.bind, pure, Except.pure, Except.map] at h
      · simp [Jsonrpc.Res.fromJson, hjv, hjr, hres, herr, hiv, hid, hnull,
          Bind.bind, Except.bind, pure, Except.pure] at h
  have hresL := fieldAtMostOnce_ok fields "result" rOpt hres
  have herrL := fieldAtMostOnce_ok fields "error" eOpt herr
  rcases eOpt with _ | ev
  · simp [Jsonrpc.Res.fromJson, hjv, hjr, hres, herr, hiv, hid, Bind.bind, Except.bind, pure, Except.pure] at h
    rw [← h]
    constructor
    · rw [hresL]
    · rw [JsonValue.memberNonNull, ← herrL]
      rfl
  · rcases hnull : ev.isNull with _ | _
    · rcases hef : Jsonrpc.Error.fromJson ev with e2 | eo
      · simp [Jsonrpc.Res.fromJson, hjv, hjr, hres, herr, hiv, hid, hnull, hef,
          Bind.bind, Except.bind, pure, Except.pure, Except.map] at h
      · simp [Jsonrpc.Res.fromJson, hjv, hjr, hres, herr, hiv, hid, hnull, hef,
          Bind.bind, Except.bind, pure, Except.pure, Except.map] at h
        rw [← h]
        constructor
        · rw [hresL]
        · rw [JsonValue.memberNonNull, ← herrL]
          simp [hnull]
    · simp [Jsonrpc.Res.fromJson, hjv, hjr, hres, herr, hiv, hid, hnull,
        Bind.bind, Except.bind, pure, Except.pure] at h
      rw [← h]
      constructor
      · rw [hresL]
      · rw [JsonValue.memberNonNull, ← herrL]
        simp [hnull]

/-- A response document carrying both a `result` member (with a null
value) and an `error` member. -/
def bothArmsResponseFields : List (String × JsonValue) :=
  [("jsonrpc", .str "2.0"), ("result", .null),
   ("error", .obj [("code", .num 1), ("message", .str "boom")]),
   ("id", .num 1)]

/-- C8 counterexample: a wire object in which both the `result` and the
`error` members are present (the `result` member being null) is
accepted by the Response deserializer, because serde reads a null
Option member as absent; the claim that deserialization rejects every
both-present document is therefore false. -/
theorem response_decode_accepts_null_result_with_error :
    JsonValue.hasKey bothArmsResponseFields "result" = true ∧
    JsonValue.hasKey bothArmsResponseFields "error" = true ∧
    Jsonrpc.Response.fromJson (.obj bothArmsResponseFields) =
      .ok ⟨.v2, .error ⟨1, "boom", none⟩, .number 1⟩ :=
  ⟨rfl, rfl, rfl⟩

/-- How the two optional slots of Res relate to the wire members. -/
theorem bind_dropNull_isSome (o : Option JsonValue) :
    (o.bind (fun v => if v.isNull then none else some v)).isSome =
      match o with
      | some v => !v.isNull
      | none => false := by
  rcases o with _ | v
  · rfl
  · rcases hnull : v.isNull with _ | _ <;> simp [hnull]

/-- C8 (amended): serializing a Response emits exactly one of the
`result` and `error` members; deserializing treats a member whose value
is null as absent, and fails unless exactly one of the two members is
present with a non-null value (rejecting in particular every document
where both members carry non-null values, and every document where
neither member carries one). -/
theorem response_wire_exclusivity :
    (∀ r : Jsonrpc.Response, ∃ fields, Jsonrpc.Response.toJson r = .obj fields ∧
      JsonValue.hasKey fields "result" ≠ JsonValue.hasKey fields "error") ∧
    (∀ (fields : List (String × JsonValue)) (res : Jsonrpc.Response),
      Jsonrpc.Response.fromJson (.obj fields) = .ok res →
      JsonValue.memberNonNull fields "result" ≠ JsonValue.memberNonNull fields "error") := by
  constructor
  · intro r
    rcases r with ⟨jr, result, id⟩
    rcases result with e | v <;>
      exact ⟨_, rfl, by simp [JsonValue.hasKey]⟩
  · intro fields res h
    rw [Jsonrpc.Response.fromJson] at h
    rcases hres : Jsonrpc.Res.fromJson (.obj fields) with e | resr <;> rw [hres] at h
    · cases h
    have slots := resFromJson_slots fields resr hres
    have hr : resr.result.isSome = JsonValue.memberNonNull fields "result" := by
      rw [slots.1, bind_dropNull_isSome]
      rw [JsonValue.memberNonNull]
    have he := slots.2
    rcases resr with ⟨jr, rslot, eslot, idslot⟩
    simp only at hr he
    rcases rslot with _ | rv <;> rcases eslot with _ | ev <;>
        simp at h hr he <;> rw [hr, he] <;> simp

/-- A well-formed response document with only a `result` member. -/
def okResultFields : List (String × JsonValue) :=
  [("jsonrpc", .str "2.0"), ("result", .str "foo"), ("id", .num 1)]

/-- Witness for the amended C8 theorem at a concrete document. -/
theorem response_wire_exclusivity_witness :
    JsonValue.memberNonNull okResultFields "result" ≠
      JsonValue.memberNonNull okResultFields "error" :=
  response_wire_exclusivity.2 okResultFields ⟨.v2, .ok (.str "foo"), .number 1⟩ rfl

/-- JSON RPC client error (jsonrpc::ClientError): request preparation,
HTTP transport, or JSON (de)serialization. -/
inductive Jsonrpc.ClientError where
  | request (s : String)
  | http (s : String)
  | json (s : String)

/-- JSON RPC client (jsonrpc::Client together with Inner::post).  The
HTTP transport and the remote server are abstracted as one function
from the posted JSON body to the replied JSON body; a network failure
is an http error, a reply that is not valid JSON is folded into the
json error raised by parsing. -/
structure Jsonrpc.Client where
  server : JsonValue → Except Jsonrpc.ClientError JsonValue

/-- Client::execute: POST the serialized request and deserialize a
single Response from the reply. -/
def Jsonrpc.Client.execute (c : Jsonrpc.Client) (request : Jsonrpc.Request) :
    Except Jsonrpc.ClientError Jsonrpc.Response :=
  match c.server request.toJson with
  | .error e => .error e
  | .ok reply =>
    match Jsonrpc.Response.fromJson reply with
    | .ok r => .ok r
    | .error s => .error (.json s)

/-- Deserialization of a response array (Vec<Response>): the reply must
be an array and every element must decode. -/
def deserializeResponseList : JsonValue → Except String (List Jsonrpc.Response)
  | .arr xs => xs.mapM Jsonrpc.Response.fromJson
  | _ => .error "invalid type: expected array"

/-- Client::execute_many (jsonrpc.rs lines 43-45): POST the serialized
request array and deserialize a response array from the reply.  The
returned array is passed through without any validation of its length
or of its ids against the submitted requests. -/
def Jsonrpc.Client.executeMany (c : Jsonrpc.Client) (requests : List Jsonrpc.Request) :
    Except Jsonrpc.ClientError (List Jsonrpc.Response) :=
  match c.server (.arr (requests.map Jsonrpc.Request.toJson)) with
  | .error e => .error e
  | .ok reply =>
    match deserializeResponseList reply with
    | .ok rs => .ok rs
    | .error s => .error (.json s)

/-- Intermediate result of handling a request (node.rs Handled). -/
inductive Handled where
  | internal (value : JsonValue)
  | remote (method : String) (params : Option Jsonrpc.Params)

/-- Internal outcome of handling a request (node.rs Outcome). -/
inductive Outcome where
  | internal (response : Jsonrpc.Response)
  | remote (request : Jsonrpc.Request)

/-- The HD node (node.rs Node).  Node owns the signer and the remote
Eth client; its per-method typed handler mux_handler (node.rs lines
183-234) is abstracted here as a function from the method name and the
parameters to the handler result, so that the dispatching theorems
quantify over every handler behaviour; the decisive typed handler arms
are embedded concretely further below. -/
structure Node where
  muxHandler : String → Option Jsonrpc.Params → Except Jsonrpc.Error Handled
  client : Jsonrpc.Client

/-- Node::mux (node.rs lines 155-180): an internal handler value
becomes a success response under the request's id, a handler error
becomes an error response under the request's id, and a remote handler
result becomes a rewritten request that keeps the original id and
version. -/
def Node.mux (node : Node) (request : Jsonrpc.Request) : Outcome :=
  match node.muxHandler request.method request.params with
  | .ok (.internal value) => .internal ⟨request.jsonrpc, .ok value, request.id⟩
  | .ok (.remote method params) => .remote ⟨request.jsonrpc, method, params, request.id⟩
  | .error err => .internal ⟨request.jsonrpc, .error err, request.id⟩

/-- Node::handle_request: run mux; forward a remote outcome through the
client, downgrading a transport failure to an internal error under the
forwarded request's id. -/
def Node.handleRequest (node : Node) (request : Jsonrpc.Request) : Jsonrpc.Response :=
  match node.mux request with
  | .internal response => response
  | .remote request =>
    match node.client.execute request with
    | .ok response => response
    | .error _ => ⟨request.jsonrpc, .error Jsonrpc.Error.internalError, request.id⟩

/-- The fixed response slot of an outcome: an internally produced
response, or a hole to be filled from the remote response stream. -/
def Outcome.responseSlot : Outcome → Option Jsonrpc.Response
  | .internal r => some r
  | .remote _ => none

/-- The remote-bound request of an outcome, if any. -/
def Outcome.remoteRequest : Outcome → Option Jsonrpc.Request
  | .remote r => some r
  | .internal _ => none

/-- The merge loop of Node::handle_requests: walk the slots, filling
each hole from the remote response iterator; the expect on an exhausted
iterator is a panic, modelled as none; leftover remote responses are
only checked by a debug assertion, which release builds compile out. -/
def mergeStream {α : Type} : List (Option α) → List α → Option (List α)
  | [], _ => some []
  | some r :: rest, rem => (mergeStream rest rem).map (r :: ·)
  | none :: _, [] => none
  | none :: rest, r :: rem => (mergeStream rest rem).map (r :: ·)

/-- Node::handle_requests (node.rs lines 93-148): mux every request,
collect the internal responses at their slots and the remote-bound
requests in order (the fold), execute the remote batch once, synthesize
per-request internal errors if that execution fails, and merge. -/
def Node.handleRequests (node : Node) (requests : List Jsonrpc.Request) :
    Option (List Jsonrpc.Response) :=
  let outcomes := requests.map node.mux
  let responses := outcomes.map Outcome.responseSlot
  let remoteRequests := outcomes.filterMap Outcome.remoteRequest
  let remoteResponses :=
    match node.client.executeMany remoteRequests with
    | .ok rs => rs
    | .error _ =>
      remoteRequests.map (fun r => ⟨r.jsonrpc, .error Jsonrpc.Error.internalError, r.id⟩)
  mergeStream responses remoteResponses

/-- Handler input (node.rs Input, untagged): a request, a batch, or
unrecognized data. -/
inductive Input where
  | request (r : Jsonrpc.Request)
  | batch (rs : List Jsonrpc.Request)
  | unrecognized (data : JsonValue)

/-- Handler output (node.rs Output). -/
inductive Output where
  | response (r : Jsonrpc.Response)
  | batch (rs : List Jsonrpc.Response)

/-- Deserialization of a request array (Vec<Request>). -/
def deserializeRequestList : JsonValue → Except String (List Jsonrpc.Request)
  | .arr xs => xs.mapM Jsonrpc.Request.fromJson
  | _ => .error "invalid type: expected array"

/-- The untagged Input deserializer: try Request first, then
Vec<Request>, and fall back to the raw value. -/
def Input.classify (j : JsonValue) : Input :=
  match Jsonrpc.Request.fromJson j with
  | .ok r => .request r
  | .error _ =>
    match deserializeRequestList j with
    | .ok rs => .batch rs
    | .error _ => .unrecognized j

/-- The HTTP handler (node.rs lines 45-60): dispatch on the classified
input; unrecognized data is answered with a single InvalidRequest
response under a null id. -/
def handler (node : Node) (input : Input) : Option Output :=
  match input with
  | .request r => some (.response (node.handleRequest r))
  | .batch rs => (node.handleRequests rs).map .batch
  | .unrecognized _ =>
    some (.response ⟨.v2, .error Jsonrpc.Error.invalidRequest, .null⟩)

/-- A concrete node whose handler refuses everything and whose remote
connection is down; the empty-batch behaviour does not depend on
either. -/
def trivialNode : Node :=
  ⟨fun _ _ => .error Jsonrpc.Error.internalError,
   ⟨fun _ => .error (.http "connection refused")⟩⟩

/-- C4 counterexample: an empty JSON batch is classified as a batch of
zero requests and answered with an empty response array, not with a
single InvalidRequest (-32600) response. -/
theorem empty_batch_not_invalid_request :
    Input.classify (.arr []) = .batch [] ∧
    handler trivialNode (.batch []) = some (.batch []) ∧
    handler trivialNode (.batch []) ≠
      some (.response ⟨.v2, .error Jsonrpc.Error.invalidRequest, .null⟩) := by
  refine ⟨rfl, rfl, ?_⟩
  intro h
  rw [show handler trivialNode (.batch []) = some (.batch []) from rfl] at h
  cases h

/-- C4 (amended): for every node, a valid JSON array of zero requests
is classified as an empty batch and the server replies with an empty
response array; empty batches are not special-cased into an
InvalidRequest error. -/
theorem empty_batch_empty_reply (node : Node) :
    Input.classify (.arr []) = .batch [] ∧
    handler node (.batch []) = some (.batch []) := by
  refine ⟨rfl, ?_⟩
  rw [handler, Node.handleRequests]
  simp only [List.map_nil, List.filterMap_nil]
  rcases he : node.client.executeMany [] with e | rs <;>
    simp [he, mergeStream]

/-- A remote server that replies to every POST with an empty JSON
array. -/
def emptyArrayClient : Jsonrpc.Client :=
  ⟨fun _ => .ok (.arr [])⟩

/-- A request that the node forwards upstream. -/
def sampleRequest : Jsonrpc.Request :=
  ⟨.v2, "eth_blockNumber", none, .number 1⟩

/-- A node that forwards every method to the remote unchanged (the
default mux arm). -/
def forwardingNode : Node :=
  ⟨fun method params => .ok (.remote method params), emptyArrayClient⟩

/-- C3 counterexample: execute_many performs no validation of the
server's reply against the submitted requests: for one submitted
request and a server that replies with zero responses, it succeeds with
an empty list instead of failing with a transport error, and
handle_requests on that node panics (models the expect on the exhausted
remote response iterator) instead of returning one response. -/
theorem execute_many_no_validation :
    Jsonrpc.Client.executeMany emptyArrayClient [sampleRequest] = .ok [] ∧
    ([] : List Jsonrpc.Response).length ≠ [sampleRequest].length ∧
    Node.handleRequests forwardingNode [sampleRequest] = none := by
  refine ⟨rfl, by decide, rfl⟩

/-- The merge loop succeeds and behaves positionally whenever the
remote stream has exactly one element per hole: the result has one
entry per slot, filled slots keep their response, and the holes consume
the stream in order, completely. -/
theorem mergeStream_spec {α : Type} (resp : List (Option α)) (rem : List α)
    (h : rem.length = resp.countP Option.isNone) :
    ∃ l, mergeStream resp rem = some l ∧ l.length = resp.length ∧
      List.Forall₂ (fun o r => ∀ x, o = some x → r = x) resp l ∧
      (List.zip resp l).filterMap
        (fun p => if p.1.isNone then some p.2 else none) = rem := by
  induction resp generalizing rem with
  | nil =>
    simp only [List.countP_nil] at h
    have h0 : rem = [] := List.eq_nil_of_length_eq_zero h
    subst h0
    exact ⟨[], rfl, rfl, .nil, rfl⟩
  | cons o rest ih =>
    rcases o with _ | x
    · rcases rem with _ | ⟨r, rem2⟩
      · rw [List.countP_cons] at h
        simp at h
      · rw [List.length_cons, List.countP_cons] at h
        simp at h
        obtain ⟨l, hm, hlen, hf, hz⟩ := ih rem2 (by omega)
        refine ⟨r :: l, ?_, by simp [hlen], .cons (fun x hx => by cases hx) hf, ?_⟩
        · rw [mergeStream, hm]
          rfl
        · simp [List.zip_cons_cons, List.filterMap_cons, hz]
    · rw [List.countP_cons] at h
      simp at h
      obtain ⟨l, hm, hlen, hf, hz⟩ := ih rem (by omega)
      refine ⟨x :: l, ?_, by simp [hlen], .cons (fun y hy => by cases hy; rfl) hf, ?_⟩
      · rw [mergeStream, hm]
        rfl
      · simp [List.zip_cons_cons, List.filterMap_cons, hz]

/-- The holes of the slot list are exactly the remote-bound requests. -/
theorem countNone_responseSlot (outcomes : List Outcome) :
    (outcomes.map Outcome.responseSlot).countP Option.isNone =
      (outcomes.filterMap Outcome.remoteRequest).length := by
  induction outcomes with
  | nil => rfl
  | cons o rest ih =>
    cases o <;>
      simp [Outcome.responseSlot, Outcome.remoteRequest, List.countP_cons,
        List.filterMap_cons, ih]

/-- An internally handled request yields a response under the request's
own id and version. -/
theorem mux_internal_id (node : Node) (request : Jsonrpc.Request)
    (response : Jsonrpc.Response) (h : node.mux request = .internal response) :
    response.id = request.id ∧ response.jsonrpc = request.jsonrpc := by
  rcases hh : node.muxHandler request.method request.params with e | handled
  · have h2 : Outcome.internal ⟨request.jsonrpc, .error e, request.id⟩ =
        .internal response := by
      rw [← h, Node.mux, hh]
    cases h2
    exact ⟨rfl, rfl⟩
  · rcases handled with v | ⟨m, p⟩
    · have h2 : Outcome.internal ⟨request.jsonrpc, .ok v, request.id⟩ =
          .internal response := by
        rw [← h, Node.mux, hh]
      cases h2
      exact ⟨rfl, rfl⟩
    · have h2 : Outcome.remote ⟨request.jsonrpc, m, p, request.id⟩ =
          .internal response := by
        rw [← h, Node.mux, hh]
      cases h2

/-- C3 (amended): whenever the remote batch call succeeds and the
server's reply has exactly one response per forwarded request, a batch
of N requests produces exactly N responses; every internally handled
position keeps the response built by mux, which carries that request's
id, and the forwarded positions consume the remote response stream in
order and completely.  execute_many itself performs no validation of
the reply (see the counterexample theorem for a mismatched count that
it passes through). -/
theorem handle_requests_batch_correspondence (node : Node)
    (requests : List Jsonrpc.Request) (rs : List Jsonrpc.Response)
    (hok : node.client.executeMany
      ((requests.map node.mux).filterMap Outcome.remoteRequest) = .ok rs)
    (hlen : rs.length =
      ((requests.map node.mux).filterMap Outcome.remoteRequest).length) :
    ∃ l, node.handleRequests requests = some l ∧
      l.length = requests.length ∧
      List.Forall₂ (fun req r => ∀ resp, node.mux req = .internal resp →
        r = resp ∧ r.id = req.id) requests l ∧
      (List.zip ((requests.map node.mux).map Outcome.responseSlot) l).filterMap
        (fun p => if p.1.isNone then some p.2 else none) = rs := by
  obtain ⟨l, hm, hl, hf, hz⟩ :=
    mergeStream_spec ((requests.map node.mux).map Outcome.responseSlot) rs
      (by rw [hlen, countNone_responseSlot])
  refine ⟨l, ?_, by simpa using hl, ?_, hz⟩
  · rw [Node.handleRequests]
    simp only [hok]
    exact hm
  · have hf2 := (List.forall₂_map_left_iff).mp ((List.forall₂_map_left_iff).mp hf)
    refine List.Forall₂.imp ?_ hf2
    intro req r hslot resp hresp
    have hr : r = resp := hslot resp (by rw [hresp]; rfl)
    exact ⟨hr, by rw [hr, (mux_internal_id node req resp hresp).1]⟩

/-- A remote server that replies to every POST with a one-element
response array. -/
def oneResponseClient : Jsonrpc.Client :=
  ⟨fun _ => .ok (.arr [.obj
    [("jsonrpc", .str "2.0"), ("result", .str "0x1"), ("id", .num 1)]])⟩

/-- A node forwarding every method to the one-response server. -/
def witnessForwardingNode : Node :=
  ⟨fun method params => .ok (.remote method params), oneResponseClient⟩

/-- Witness for the amended C3 theorem: one forwarded request, one
remote response, and the batch handler returns a list. -/
theorem handle_requests_batch_correspondence_witness :
    (Node.handleRequests witnessForwardingNode [sampleRequest]).isSome = true := by
  obtain ⟨l, hm, h2⟩ := handle_requests_batch_correspondence witnessForwardingNode
    [sampleRequest] [⟨.v2, .ok (.str "0x1"), .number 1⟩] rfl rfl
  rw [hm]
  rfl

/-- The number of values of a 256-bit word (ethnum::U256). -/
def U256.size : Nat := 2 ^ 256

/-- An Ethereum quantity (serialization::Quantity wrapping
ethnum::U256), modelled as Nat; arithmetic performed by the code is
wrapped modulo U256.size (release-build semantics of the U256
operators). -/
abbrev Quantity := Nat

/-- Lowercase hex rendering with 0x prefix, as the Rust alternate hex
format produces for a U256. -/
def hexQuantity (n : Quantity) : String :=
  "0x" ++ String.mk (Nat.toDigits 16 n)

/-- An Ethereum address (hdwallet::account::Address, 20 bytes); the
byte content is never inspected by the embedded code, so it is held
abstractly as one number. -/
structure Address where
  val : Nat
  deriving DecidableEq

/-- An ECDSA signature (hdwallet::account::Signature): the r and s
words and the recovery byte v. -/
structure Signature where
  r : Nat
  s : Nat
  v : Nat
  deriving DecidableEq

/-- A block reference (node/types.rs Block). -/
inductive Block where
  | latest
  | pending
  | number (q : Quantity)
  deriving DecidableEq

/-- Fee history (node/types.rs FeeHistory). -/
structure FeeHistory where
  base_fee_per_gas : List Quantity
  gas_used_ratio : List Quantity
  oldest_block : Quantity
  reward : Option (List (List Quantity))

/-- An access list: pairs of an address and its 32-byte storage slots
(transaction.rs AccessList); slot bytes are held as one number each. -/
abbrev AccessList := List (Address × List Nat)

/-- An anyhow::Error as this program produces them: the typed
UnknownSignerError raised by the wallet, or a message error from the
ensure!/context macros and from library errors. -/
inductive AnyhowError where
  | unknownSigner (account : Address)
  | msg (s : String)

/-- impl From<anyhow::Error> for jsonrpc::Error (node.rs lines
293-302): only an error that downcasts to UnknownSignerError maps to
invalid params (-32602); every other error maps to internal error
(-32603). -/
def Jsonrpc.Error.fromAnyhow : AnyhowError → Jsonrpc.Error
  | .unknownSigner _ => Jsonrpc.Error.invalidParams
  | .msg _ => Jsonrpc.Error.internalError

/-- The result of running fallible Rust code that can also panic: a
recoverable anyhow error, or a process panic (a panic aborts the task
and is never turned into an RPC response). -/
inductive RunError where
  | err (e : AnyhowError)
  | panicked (s : String)

/-- Transaction request parameters (transaction.rs TransactionRequest):
`from` required, everything else optional with `value` and `data`
defaulted by serde. -/
structure TransactionRequest where
  «from» : Address
  «to» : Option Address
  gas : Option Quantity
  gas_price : Option Quantity
  max_fee_per_gas : Option Quantity
  max_priority_fee_per_gas : Option Quantity
  value : Quantity
  data : List Nat
  nonce : Option Quantity
  access_list : Option AccessList
  chain_id : Option Quantity

/-- Modelled from the spec: hdwallet::transaction::Eip1559Transaction
lives outside src/; its field set is exactly the one initialized by
Transaction::from_args. -/
structure Eip1559Transaction where
  chain_id : Quantity
  nonce : Quantity
  max_priority_fee_per_gas : Quantity
  max_fee_per_gas : Quantity
  gas_limit : Quantity
  «to» : Option Address
  value : Quantity
  data : List Nat
  access_list : AccessList

/-- Modelled from the spec: hdwallet::transaction::Eip2930Transaction
lives outside src/; its field set is exactly the one initialized by
Transaction::from_args. -/
structure Eip2930Transaction where
  chain_id : Quantity
  nonce : Quantity
  gas_price : Quantity
  gas_limit : Quantity
  «to» : Option Address
  value : Quantity
  data : List Nat
  access_list : AccessList

/-- Modelled from the spec: hdwallet::transaction::LegacyTransaction
lives outside src/; its field set is exactly the one initialized by
Transaction::from_args, with an optional chain id for EIP-155. -/
structure LegacyTransaction where
  nonce : Quantity
  gas_price : Quantity
  gas_limit : Quantity
  «to» : Option Address
  value : Quantity
  data : List Nat
  chain_id : Option Quantity

/-- The filled transaction variants (hdwallet::transaction::Transaction,
aliased Inner in transaction.rs; named TxInner here because Lean's
library already takes the name Inner). -/
inductive TxInner where
  | eip1559 (t : Eip1559Transaction)
  | eip2930 (t : Eip2930Transaction)
  | legacy (t : LegacyTransaction)

/-- The wrapper pairing the filled request with the encoded variant
(transaction.rs Transaction). -/
structure Transaction where
  args : TransactionRequest
  inner : TxInner

/-- TransactionRequest::hdwallet_access_list: the optional access list
flattened, so an absent list becomes the empty list. -/
def TransactionRequest.hdwallet_access_list (args : TransactionRequest) : AccessList :=
  args.access_list.getD []

/-- Transaction::from_args (transaction.rs lines 191-226): select the
variant on (maxFeePerGas, accessList) presence; the unwraps of the
required fields panic when a field is missing, modelled as none. -/
def Transaction.from_args (args : TransactionRequest) : Option Transaction :=
  match args.max_fee_per_gas, args.access_list with
  | some _, _ =>
    match args.chain_id, args.nonce, args.max_priority_fee_per_gas,
        args.max_fee_per_gas, args.gas with
    | some chain_id, some nonce, some max_priority, some max_fee, some gas =>
      some ⟨args, .eip1559 ⟨chain_id, nonce, max_priority, max_fee, gas,
        args.«to», args.value, args.data, args.hdwallet_access_list⟩⟩
    | _, _, _, _, _ => none
  | none, some _ =>
    match args.chain_id, args.nonce, args.gas_price, args.gas with
    | some chain_id, some nonce, some gas_price, some gas =>
      some ⟨args, .eip2930 ⟨chain_id, nonce, gas_price, gas,
        args.«to», args.value, args.data, args.hdwallet_access_list⟩⟩
    | _, _, _, _ => none
  | none, none =>
    match args.nonce, args.gas_price, args.gas, args.chain_id with
    | some nonce, some gas_price, some gas, some chain_id =>
      some ⟨args, .legacy ⟨nonce, gas_price, gas,
        args.«to», args.value, args.data, some chain_id⟩⟩
    | _, _, _, _ => none

/-- The upstream node's answers to the calls a Batch (node/eth.rs) may
enqueue.  Executing the batch resolves each enqueued call's oneshot
future with the corresponding answer; `batch_execute` is the outcome of
posting the batch itself (Batch::execute), whose failure aborts the
filler before any future is read.  The chain_id entry is the value the
chain-id cache yields (cached or freshly fetched). -/
structure Fetched where
  batch_execute : Except String Unit
  chain_id : Except String Quantity
  transaction_count : Address → Block → Except String Quantity
  estimate_gas : TransactionRequest → Block → Except String Quantity
  gas_price : Except String Quantity
  fee_history : Except String FeeHistory
  max_priority_fee_per_gas : Except String Quantity

/-- Batch::base_fee (eth.rs lines 222-228): call
eth_feeHistory(1, Latest, []) and take entry 1 of the baseFeePerGas
array; awaiting panics with an index-out-of-bounds when the array is
shorter, and propagates the call's error otherwise. -/
def Batch.base_fee (eth : Fetched) : Except RunError Quantity :=
  match eth.fee_history with
  | .error e => .error (.err (.msg e))
  | .ok fh =>
    match fh.base_fee_per_gas.get? 1 with
    | some q => .ok q
    | none => .error (.panicked "index out of bounds: base_fee_per_gas[1]")

/-- Awaiting a plain quantity future and propagating its error with
the ? operator (the error becomes an anyhow message error). -/
def awaitQ (r : Except String Quantity) : Except RunError Quantity :=
  match r with
  | .ok q => .ok q
  | .error e => .error (.err (.msg e))

/-- The gas-limit merge step of fill (transaction.rs lines 116-118):
when estimate_gas was enqueued, await it, propagating its error, and
store the estimate. -/
def TransactionRequest.fillGas (gas_call : Option (Except String Quantity))
    (self : TransactionRequest) : Except RunError TransactionRequest :=
  match gas_call with
  | none => .ok self
  | some call =>
    match awaitQ call with
    | .error e => .error e
    | .ok g => .ok { self with gas := some g }

/-- The fee merge step of fill (the match on the three optional fee
futures, transaction.rs lines 119-147).  When all three were enqueued,
prefer EIP-1559: on both awaits succeeding set
maxFee = 2*base + priority (wrapped to 256 bits) and the priority fee,
falling back to the awaited legacy gas price when either failed, and
propagating a panic of the base-fee await.  Otherwise fill just the
missing pieces, computing maxFee = 2*base + existing priority when the
base fee was fetched (the unwrap of the priority fee is a panic). -/
def TransactionRequest.fillFees (gas_price_call : Option (Except String Quantity))
    (base_fee_call : Option (Except RunError Quantity))
    (max_priority_call : Option (Except String Quantity))
    (self : TransactionRequest) : Except RunError TransactionRequest :=
  match gas_price_call, base_fee_call, max_priority_call with
  | some gp, some bf, some mp =>
    match bf with
    | .error (.panicked s) => .error (.panicked s)
    | .error (.err _) =>
      match awaitQ gp with
      | .error e2 => .error e2
      | .ok gpv => .ok { self with gas_price := some gpv }
    | .ok bfv =>
      match mp with
      | .error _ =>
        match awaitQ gp with
        | .error e2 => .error e2
        | .ok gpv => .ok { self with gas_price := some gpv }
      | .ok mpv =>
        .ok { self with
          max_fee_per_gas := some ((bfv * 2 + mpv) % U256.size),
          max_priority_fee_per_gas := some mpv }
  | gpOpt, bfOpt, mpOpt =>
    let s1 : Except RunError TransactionRequest :=
      match gpOpt with
      | none => .ok self
      | some call =>
        match awaitQ call with
        | .error e => .error e
        | .ok v => .ok { self with gas_price := some v }
    match s1 with
    | .error e => .error e
    | .ok self1 =>
      let s2 : Except RunError TransactionRequest :=
        match mpOpt with
        | none => .ok self1
        | some call =>
          match awaitQ call with
          | .error e => .error e
          | .ok v => .ok { self1 with max_priority_fee_per_gas := some v }
      match s2 with
      | .error e => .error e
      | .ok self2 =>
        match bfOpt with
        | none => .ok self2
        | some call =>
          match call with
          | .error e => .error e
          | .ok bfv =>
            match self2.max_priority_fee_per_gas with
            | none => .error (.panicked "called Option::unwrap on a None value")
            | some mpv => .ok { self2 with
                max_fee_per_gas := some ((bfv * 2 + mpv) % U256.size) }

/-- The optional estimate_gas call of fill, enqueued with the original
request and the Pending block when gas is absent. -/
def TransactionRequest.gasCall (self : TransactionRequest) (eth : Fetched) :
    Option (Except String Quantity) :=
  match self.gas with
  | none => some (eth.estimate_gas self .pending)
  | some _ => none

/-- Which fee calls the filler enqueues (transaction.rs lines 90-101):
eth_gasPrice when no fee field was supplied; the base fee when neither
gasPrice nor maxFeePerGas was supplied; eth_maxPriorityFeePerGas when
neither gasPrice nor maxPriorityFeePerGas was supplied. -/
def TransactionRequest.gasPriceCall (self : TransactionRequest) (eth : Fetched) :
    Option (Except String Quantity) :=
  match self.gas_price, self.max_fee_per_gas, self.max_priority_fee_per_gas with
  | none, none, none => some eth.gas_price
  | _, _, _ => none

/-- The optional base-fee call; see gasPriceCall. -/
def TransactionRequest.baseFeeCall (self : TransactionRequest) (eth : Fetched) :
    Option (Except RunError Quantity) :=
  match self.gas_price, self.max_fee_per_gas with
  | none, none => some (Batch.base_fee eth)
  | _, _ => none

/-- The optional max-priority-fee call; see gasPriceCall. -/
def TransactionRequest.maxPriorityCall (self : TransactionRequest) (eth : Fetched) :
    Option (Except String Quantity) :=
  match self.gas_price, self.max_priority_fee_per_gas with
  | none, none => some eth.max_priority_fee_per_gas
  | _, _ => none

/-- TransactionRequest::fill (transaction.rs lines 69-150) against the
upstream answers `eth`.  Mirrors the source step by step: enqueue
chain_id, get_transaction_count(from, Latest) and, when gas is absent,
estimate_gas(self, Pending); reject conflicting fee fields; classify
which fee calls to enqueue; execute the batch; check the chain id and
the nonce with get_or_insert semantics; fill the gas limit (fillGas)
and the fee model (fillFees); and build the final Transaction, whose
missing-field unwraps are panics. -/
def TransactionRequest.fill (self : TransactionRequest) (eth : Fetched) :
    Except RunError (Address × Transaction) :=
  let account := self.«from»
  let gas_call := TransactionRequest.gasCall self eth
  if ¬(self.gas_price = none ∨
      (self.max_fee_per_gas = none ∧ self.max_priority_fee_per_gas = none)) then
    .error (.err (.msg "specified both gas price and London gas parameters"))
  else
    let gas_price_call := TransactionRequest.gasPriceCall self eth
    let base_fee_call := TransactionRequest.baseFeeCall self eth
    let max_priority_call := TransactionRequest.maxPriorityCall self eth
    match eth.batch_execute with
    | .error e => .error (.err (.msg e))
    | .ok () =>
      match awaitQ eth.chain_id with
      | .error e => .error e
      | .ok chain_id =>
        if self.chain_id.getD chain_id ≠ chain_id then
          .error (.err (.msg "chain ID used for signing does not match node"))
        else
          match awaitQ (eth.transaction_count account .latest) with
          | .error e => .error e
          | .ok nonce =>
            if self.nonce.getD nonce ≠ nonce then
              .error (.err (.msg ("only signing transactions for current nonce (" ++
                hexQuantity nonce ++ ") permitted")))
            else
              let selfN := { self with
                chain_id := some (self.chain_id.getD chain_id),
                nonce := some (self.nonce.getD nonce) }
              match TransactionRequest.fillGas gas_call selfN with
              | .error e => .error e
              | .ok selfG =>
                match TransactionRequest.fillFees gas_price_call base_fee_call
                    max_priority_call selfG with
                | .error e => .error e
                | .ok selfF =>
                  match Transaction.from_args selfF with
                  | some tx => .ok (account, tx)
                  | none => .error (.panicked "missing transaction fields")

theorem awaitQ_ok (r : Except String Quantity) (q : Quantity)
    (h : awaitQ r = .ok q) : r = .ok q := by
  rcases r with e | v
  · cases h
  · cases h
    rfl

/-- The wrapper built by from_args keeps the argument record. -/
theorem Transaction.from_args_args (args : TransactionRequest) (t : Transaction)
    (h : Transaction.from_args args = some t) : t.args = args := by
  unfold Transaction.from_args at h
  repeat' split at h
  all_goals cases h
  all_goals rfl

/-- from_args is stable on its own output's argument record. -/
theorem Transaction.from_args_self (args : TransactionRequest) (t : Transaction)
    (h : Transaction.from_args args = some t) :
    Transaction.from_args t.args = some t := by
  rw [Transaction.from_args_args args t h]
  exact h

/-- fillGas only touches the gas field. -/
theorem TransactionRequest.fillGas_ok (gas_call : Option (Except String Quantity))
    (s s' : TransactionRequest) (h : TransactionRequest.fillGas gas_call s = .ok s') :
    s'.«from» = s.«from» ∧ s'.chain_id = s.chain_id ∧ s'.nonce = s.nonce ∧
    s'.gas_price = s.gas_price ∧ s'.max_fee_per_gas = s.max_fee_per_gas ∧
    s'.max_priority_fee_per_gas = s.max_priority_fee_per_gas ∧
    s'.access_list = s.access_list := by
  unfold TransactionRequest.fillGas at h
  repeat' split at h
  all_goals cases h
  all_goals exact ⟨rfl, rfl, rfl, rfl, rfl, rfl, rfl⟩

/-- fillFees never touches the identity, chain, nonce, gas or access
fields. -/
theorem TransactionRequest.fillFees_ok_frame
    (gp : Option (Except String Quantity)) (bf : Option (Except RunError Quantity))
    (mp : Option (Except String Quantity)) (s s' : TransactionRequest)
    (h : TransactionRequest.fillFees gp bf mp s = .ok s') :
    s'.«from» = s.«from» ∧ s'.chain_id = s.chain_id ∧ s'.nonce = s.nonce ∧
    s'.gas = s.gas ∧ s'.access_list = s.access_list := by
  unfold TransactionRequest.fillFees at h
  repeat' (first | split at h | dsimp only [] at h)
  all_goals first
    | (cases h; exact ⟨rfl, rfl, rfl, rfl, rfl⟩)
    | cases h

/-- Behaviour of the fee merge when all three calls were enqueued (the
client supplied no fee field): when base fee and priority fee both
resolved, EIP-1559 pricing is written; when either failed, the awaited
legacy gas price is written instead. -/
theorem TransactionRequest.fillFees_all_enqueued
    (gp : Except String Quantity) (bf : Except RunError Quantity)
    (mp : Except String Quantity) (s s' : TransactionRequest)
    (h : TransactionRequest.fillFees (some gp) (some bf) (some mp) s = .ok s') :
    (∀ bfv mpv, bf = .ok bfv → mp = .ok mpv →
      s' = { s with
        max_fee_per_gas := some ((bfv * 2 + mpv) % U256.size),
        max_priority_fee_per_gas := some mpv }) ∧
    (((∃ e, bf = .error (.err e)) ∨ ((∃ bfv, bf = .ok bfv) ∧ ∃ e, mp = .error e)) →
      ∃ g, gp = .ok g ∧ s' = { s with gas_price := some g }) := by
  unfold TransactionRequest.fillFees at h
  dsimp only [] at h
  constructor
  · intro bfv mpv hbf hmp
    rw [hbf, hmp] at h
    dsimp only [] at h
    cases h
    rfl
  · intro hfail
    rcases hbf : bf with re | bfv
    · rcases re with e | sp
      · rw [hbf] at h
        dsimp only [] at h
        rcases hgp : awaitQ gp with e2 | gpv <;> rw [hgp] at h
        · cases h
        · cases h
          exact ⟨gpv, awaitQ_ok gp gpv hgp, rfl⟩
      · rw [hbf] at h
        dsimp only [] at h
        cases h
    · rw [hbf] at h
      dsimp only [] at h
      rcases hmp : mp with e | mpv <;> rw [hmp] at h <;> dsimp only [] at h
      · rcases hgp : awaitQ gp with e2 | gpv <;> rw [hgp] at h
        · cases h
        · cases h
          exact ⟨gpv, awaitQ_ok gp gpv hgp, rfl⟩
      · cases h
        rcases hfail with ⟨e, he⟩ | ⟨_, e, he⟩
        · rw [hbf] at he
          cases he
        · rw [hmp] at he
          cases he

/-- Case analysis of from_args: exactly one variant is produced,
selected on (maxFeePerGas, accessList), and success implies every
mandatory field of that variant was present. -/
theorem Transaction.from_args_cases (args : TransactionRequest) (t : Transaction)
    (h : Transaction.from_args args = some t) :
    t.args = args ∧
    ((args.max_fee_per_gas.isSome ∧ args.max_priority_fee_per_gas.isSome ∧
        args.chain_id.isSome ∧ args.nonce.isSome ∧ args.gas.isSome ∧
        ∃ i, t.inner = .eip1559 i ∧ i.access_list = args.hdwallet_access_list) ∨
      (args.max_fee_per_gas = none ∧ args.access_list.isSome ∧
        args.gas_price.isSome ∧ args.chain_id.isSome ∧ args.nonce.isSome ∧
        args.gas.isSome ∧ ∃ i, t.inner = .eip2930 i) ∨
      (args.max_fee_per_gas = none ∧ args.access_list = none ∧
        args.gas_price.isSome ∧ args.chain_id.isSome ∧ args.nonce.isSome ∧
        args.gas.isSome ∧ ∃ i, t.inner = .legacy i ∧ i.chain_id = args.chain_id)) := by
  have hargs := Transaction.from_args_args args t h
  unfold Transaction.from_args at h
  repeat' split at h
  all_goals cases h
  all_goals refine ⟨rfl, ?_⟩
  · left
    rename_i gv h2 h3 h4 h5 h6
    exact ⟨by simp [h5], by simp [h4], by simp [h2], by simp [h3], by simp [h6],
      _, rfl, rfl⟩
  · right
    left
    refine ⟨?_, ?_, ?_, ?_, ?_, ?_, _, rfl⟩ <;> simp_all
  · right
    right
    refine ⟨?_, ?_, ?_, ?_, ?_, ?_, _, rfl, ?_⟩ <;> simp_all

/-- Inversion of a successful fill: the signing account is the
request's from; from_args accepts the final argument record; the chain
id was fetched and matches the request's (get_or_insert) and is stored;
the transaction count was fetched for (from, Latest), matches the
request's nonce when one was supplied, and is stored; and the final
record is the fee merge of a record that still carries the request's
original fee fields. -/
theorem fill_ok_inversion (self : TransactionRequest) (eth : Fetched)
    (a : Address) (tx : Transaction)
    (h : TransactionRequest.fill self eth = .ok (a, tx)) :
    a = self.«from» ∧
    Transaction.from_args tx.args = some tx ∧
    (∃ c, eth.chain_id = .ok c ∧ self.chain_id.getD c = c ∧
      tx.args.chain_id = some c) ∧
    (∃ m, eth.transaction_count self.«from» Block.latest = .ok m ∧
      self.nonce.getD m = m ∧ tx.args.nonce = some m) ∧
    (∃ selfG, TransactionRequest.fillFees (self.gasPriceCall eth)
        (self.baseFeeCall eth) (self.maxPriorityCall eth) selfG = .ok tx.args ∧
      selfG.gas_price = self.gas_price ∧
      selfG.max_fee_per_gas = self.max_fee_per_gas ∧
      selfG.max_priority_fee_per_gas = self.max_priority_fee_per_gas) := by
  simp only [TransactionRequest.fill] at h
  repeat' split at h
  all_goals cases h
  rename_i hconf xb hbatch xc c hchain hchk xn n hnonce hnchk xg selfG hgas
    xf selfF hfees xa hargs
  have hargs2 := Transaction.from_args_args _ _ hargs
  have hgf := TransactionRequest.fillGas_ok _ _ _ hgas
  have hff := TransactionRequest.fillFees_ok_frame _ _ _ _ _ hfees
  have hc : self.chain_id.getD c = c := not_ne_iff.mp hchk
  have hn : self.nonce.getD n = n := not_ne_iff.mp hnchk
  refine ⟨rfl, Transaction.from_args_self _ _ hargs, ⟨c, awaitQ_ok _ _ hchain, hc, ?_⟩,
    ⟨n, awaitQ_ok _ _ hnonce, hn, ?_⟩, ⟨selfG, ?_, ?_, ?_, ?_⟩⟩
  · rw [hargs2, hff.2.1, hgf.2.1]
    dsimp only []
    rw [hc]
  · rw [hargs2, hff.2.2.1, hgf.2.2.1]
    dsimp only []
    rw [hn]
  · rw [← hargs2] at hfees
    exact hfees
  · rw [hgf.2.2.2.1]
  · rw [hgf.2.2.2.2.1]
  · rw [hgf.2.2.2.2.2.1]

/-- A panicking base-fee await aborts the fee merge. -/
theorem TransactionRequest.fillFees_panic (gp : Except String Quantity)
    (sp : String) (mp : Except String Quantity) (s s' : TransactionRequest) :
    TransactionRequest.fillFees (some gp) (some (.error (.panicked sp)))
      (some mp) s ≠ .ok s' := by
  intro h
  unfold TransactionRequest.fillFees at h
  dsimp only [] at h
  cases h

/-- C6: for every successfully filled transaction request, the account
is the request's from and exactly one transaction variant is produced,
selected as: maxFeePerGas present implies EIP-1559 (with the access
list defaulting to empty); otherwise accessList present implies
EIP-2930; otherwise legacy with the chain id embedded; and every field
mandatory for the selected variant (chain id, nonce, gas limit and the
variant's fee fields) is present in the final record. -/
theorem fill_transaction_type_selection (self : TransactionRequest) (eth : Fetched)
    (a : Address) (tx : Transaction)
    (h : TransactionRequest.fill self eth = .ok (a, tx)) :
    a = self.«from» ∧
    ((tx.args.max_fee_per_gas.isSome ∧ tx.args.max_priority_fee_per_gas.isSome ∧
        tx.args.chain_id.isSome ∧ tx.args.nonce.isSome ∧ tx.args.gas.isSome ∧
        ∃ i, tx.inner = .eip1559 i ∧
          i.access_list = tx.args.hdwallet_access_list) ∨
      (tx.args.max_fee_per_gas = none ∧ tx.args.access_list.isSome ∧
        tx.args.gas_price.isSome ∧ tx.args.chain_id.isSome ∧ tx.args.nonce.isSome ∧
        tx.args.gas.isSome ∧ ∃ i, tx.inner = .eip2930 i) ∨
      (tx.args.max_fee_per_gas = none ∧ tx.args.access_list = none ∧
        tx.args.gas_price.isSome ∧ tx.args.chain_id.isSome ∧ tx.args.nonce.isSome ∧
        tx.args.gas.isSome ∧ ∃ i, tx.inner = .legacy i ∧
          i.chain_id = tx.args.chain_id)) := by
  obtain ⟨h1, h2, _⟩ := fill_ok_inversion self eth a tx h
  exact ⟨h1, (Transaction.from_args_cases tx.args tx h2).2⟩

/-- A demonstration request: only from, to and value supplied. -/
def fillDemoRequest : TransactionRequest :=
  ⟨⟨7⟩, some ⟨9⟩, none, none, none, none, 1, [], none, none, none⟩

/-- Upstream answers for the demonstration request: chain id 1, nonce
5, gas estimate 21000, gas price 2, base fees [3, 4], priority fee 1. -/
def fillDemoEnv : Fetched :=
  ⟨.ok (), .ok 1, fun _ _ => .ok 5, fun _ _ => .ok 21000, .ok 2,
   .ok ⟨[3, 4], [], 0, none⟩, .ok 1⟩

/-- The transaction the demonstration inputs fill to: EIP-1559 with
maxFee = 2 * 4 + 1 = 9. -/
def fillDemoTx : Transaction :=
  ⟨⟨⟨7⟩, some ⟨9⟩, some 21000, none, some 9, some 1, 1, [], some 5, none, some 1⟩,
   .eip1559 ⟨1, 5, 1, 9, 21000, some ⟨9⟩, 1, [], []⟩⟩

/-- Witness for the C6 theorem at the demonstration inputs. -/
theorem fill_transaction_type_selection_witness :
    fillDemoTx.args.nonce.isSome = true := by
  have h := fill_transaction_type_selection fillDemoRequest fillDemoEnv ⟨7⟩
    fillDemoTx rfl
  rcases h.2 with ⟨_, _, _, hn, _⟩ | ⟨_, _, _, _, hn, _⟩ | ⟨_, _, _, _, hn, _⟩ <;>
    exact hn

theorem Batch.base_fee_ok (eth : Fetched) (fh : FeeHistory) (b : Quantity)
    (hfh : eth.fee_history = .ok fh)
    (hb : fh.base_fee_per_gas.get? 1 = some b) :
    Batch.base_fee eth = .ok b := by
  rw [Batch.base_fee, hfh]
  dsimp only []
  rw [hb]

theorem Batch.base_fee_err (eth : Fetched) (e : String)
    (hfh : eth.fee_history = .error e) :
    Batch.base_fee eth = .error (.err (.msg e)) := by
  rw [Batch.base_fee, hfh]

theorem Batch.base_fee_short (eth : Fetched) (fh : FeeHistory)
    (hfh : eth.fee_history = .ok fh)
    (hb : fh.base_fee_per_gas.get? 1 = none) :
    Batch.base_fee eth = .error (.panicked "index out of bounds: base_fee_per_gas[1]") := by
  rw [Batch.base_fee, hfh]
  dsimp only []
  rw [hb]

/-- C5: when the client supplied none of gasPrice, maxFeePerGas and
maxPriorityFeePerGas and the fill succeeded, then: if the base-fee and
priority-fee fetches both succeeded, the filled transaction carries
maxPriorityFeePerGas equal to the fetched priority fee and maxFeePerGas
equal to two times the fetched base fee (the second entry of
eth_feeHistory's baseFeePerGas array) plus the fetched priority fee
(wrapped to 256 bits, the plain sum whenever it fits); if either of the
two fetches failed, the filled transaction instead carries the fetched
eth_gasPrice as a legacy gas price and no maxFeePerGas. -/
theorem fill_gas_model (self : TransactionRequest) (eth : Fetched)
    (a : Address) (tx : Transaction)
    (hgp : self.gas_price = none) (hmf : self.max_fee_per_gas = none)
    (hmp : self.max_priority_fee_per_gas = none)
    (h : TransactionRequest.fill self eth = .ok (a, tx)) :
    (∀ fh b p, eth.fee_history = .ok fh → fh.base_fee_per_gas.get? 1 = some b →
      eth.max_priority_fee_per_gas = .ok p →
      tx.args.max_priority_fee_per_gas = some p ∧
      tx.args.max_fee_per_gas = some ((b * 2 + p) % U256.size) ∧
      (b * 2 + p < U256.size → tx.args.max_fee_per_gas = some (b * 2 + p))) ∧
    (((∃ e, eth.fee_history = .error e) ∨
        (∃ e, eth.max_priority_fee_per_gas = .error e)) →
      ∃ g, eth.gas_price = .ok g ∧ tx.args.gas_price = some g ∧
        tx.args.max_fee_per_gas = none) := by
  obtain ⟨-, -, -, -, selfG, hfees, hG1, hG2, hG3⟩ := fill_ok_inversion self eth a tx h
  rw [TransactionRequest.gasPriceCall, TransactionRequest.baseFeeCall,
    TransactionRequest.maxPriorityCall, hgp, hmf, hmp] at hfees
  dsimp only [] at hfees
  obtain ⟨hok, hfall⟩ := TransactionRequest.fillFees_all_enqueued _ _ _ _ _ hfees
  constructor
  · intro fh b p hfh hb hp
    have hbf : Batch.base_fee eth = .ok b := Batch.base_fee_ok eth fh b hfh hb
    have := hok b p hbf hp
    rw [this]
    refine ⟨rfl, rfl, fun hsmall => ?_⟩
    dsimp only []
    rw [Nat.mod_eq_of_lt hsmall]
  · intro hfail
    have hcond : (∃ e, Batch.base_fee eth = .error (.err e)) ∨
        ((∃ bfv, Batch.base_fee eth = .ok bfv) ∧
          ∃ e, eth.max_priority_fee_per_gas = .error e) := by
      rcases hfail with ⟨e, he⟩ | ⟨e, he⟩
      · exact .inl ⟨.msg e, Batch.base_fee_err eth e he⟩
      · rcases hfh : eth.fee_history with e2 | fh
        · exact .inl ⟨.msg e2, Batch.base_fee_err eth e2 hfh⟩
        · rcases hb : fh.base_fee_per_gas.get? 1 with _ | b
          · exfalso
            rw [Batch.base_fee_short eth fh hfh hb] at hfees
            exact TransactionRequest.fillFees_panic _ _ _ _ _ hfees
          · exact .inr ⟨⟨b, Batch.base_fee_ok eth fh b hfh hb⟩, ⟨e, he⟩⟩
    obtain ⟨g, hg, heq⟩ := hfall hcond
    refine ⟨g, hg, ?_, ?_⟩
    · rw [heq]
    · rw [heq]
      dsimp only []
      rw [hG2, hmf]

/-- Witness for the C5 theorem at the demonstration inputs:
maxFee = 2 * 4 + 1 = 9. -/
theorem fill_gas_model_witness :
    fillDemoTx.args.max_fee_per_gas = some 9 ∧
    fillDemoTx.args.max_priority_fee_per_gas = some 1 := by
  have h := fill_gas_model fillDemoRequest fillDemoEnv ⟨7⟩ fillDemoTx rfl rfl rfl rfl
  have h2 := h.1 ⟨[3, 4], [], 0, none⟩ 4 1 rfl rfl rfl
  exact ⟨h2.2.2 (by decide), h2.1⟩

/-- C7: a fill succeeds only if the supplied nonce equals the node's
transaction count for the sending account at the Latest block, the
value the filler enqueued for comparison; an absent nonce is filled
with the fetched count; a mismatching supplied nonce makes fill fail
(given that the earlier steps - fee-conflict check, batch execution and
chain-id check - pass). -/
theorem fill_nonce_policy (self : TransactionRequest) (eth : Fetched) :
    (∀ a tx, TransactionRequest.fill self eth = .ok (a, tx) →
      (∀ n0, self.nonce = some n0 →
        eth.transaction_count self.«from» Block.latest = .ok n0) ∧
      (self.nonce = none →
        ∃ m, eth.transaction_count self.«from» Block.latest = .ok m ∧
          tx.args.nonce = some m)) ∧
    (∀ n0 m, self.nonce = some n0 →
      eth.transaction_count self.«from» Block.latest = .ok m → n0 ≠ m →
      (self.gas_price = none ∨
        (self.max_fee_per_gas = none ∧ self.max_priority_fee_per_gas = none)) →
      eth.batch_execute = .ok () →
      (∃ c, eth.chain_id = .ok c ∧ self.chain_id.getD c = c) →
      TransactionRequest.fill self eth =
        .error (.err (.msg ("only signing transactions for current nonce (" ++
          hexQuantity m ++ ") permitted")))) := by
  constructor
  · intro a tx h
    obtain ⟨-, -, -, ⟨m, hm, hgetd, hstored⟩, -⟩ := fill_ok_inversion self eth a tx h
    constructor
    · intro n0 hn0
      rw [hn0] at hgetd
      simp only [Option.getD_some] at hgetd
      rw [← hgetd] at hm
      exact hm
    · intro hn0
      exact ⟨m, hm, hstored⟩
  · intro n0 m hn0 hcount hne hconf hexec ⟨c, hcid, hcgetd⟩
    simp only [TransactionRequest.fill]
    rw [if_neg (not_not_intro hconf), hexec]
    dsimp only []
    rw [hcid]
    dsimp only [awaitQ]
    rw [if_neg (not_ne_iff.mpr hcgetd)]
    rw [hcount]
    dsimp only []
    rw [hn0]
    simp only [Option.getD_some]
    rw [if_pos hne]

def fillDemoBadNonce : TransactionRequest :=
  ⟨⟨7⟩, some ⟨9⟩, none, none, none, none, 1, [], some 6, none, none⟩

/-- Witness for the C7 theorem: a supplied nonce 6 against a node count
of 5 is rejected. -/
theorem fill_nonce_policy_witness :
    TransactionRequest.fill fillDemoBadNonce fillDemoEnv =
      .error (.err (.msg ("only signing transactions for current nonce (" ++
        hexQuantity 5 ++ ") permitted"))) :=
  (fill_nonce_policy fillDemoBadNonce fillDemoEnv).2 6 5 rfl rfl (by decide)
    (.inl rfl) rfl ⟨1, rfl, rfl⟩

/-- The fee merge propagates the base-fee panic when all three calls
were enqueued. -/
theorem TransactionRequest.fillFees_panic_eq1 (gp : Except String Quantity)
    (sp : String) (mp : Except String Quantity) (s : TransactionRequest) :
    TransactionRequest.fillFees (some gp) (some (.error (.panicked sp)))
      (some mp) s = .error (.panicked sp) := by
  unfold TransactionRequest.fillFees
  dsimp only []

/-- The fee merge propagates the base-fee panic when only the base fee
was enqueued. -/
theorem TransactionRequest.fillFees_panic_eq2 (sp : String)
    (s : TransactionRequest) :
    TransactionRequest.fillFees none (some (.error (.panicked sp))) none s =
      .error (.panicked sp) := by
  unfold TransactionRequest.fillFees
  dsimp only []

/-- C9: whenever fill needs the base fee (neither gasPrice nor
maxFeePerGas supplied) and the upstream's baseFeePerGas array has fewer
than two entries, fill panics with the out-of-bounds index instead of
returning an error result (given that the earlier steps pass). -/
theorem fill_short_base_fee_panics (self : TransactionRequest) (eth : Fetched)
    (fh : FeeHistory)
    (hgp : self.gas_price = none) (hmf : self.max_fee_per_gas = none)
    (hexec : eth.batch_execute = .ok ())
    (hchain : ∃ c, eth.chain_id = .ok c ∧ self.chain_id.getD c = c)
    (hnonce : ∃ m, eth.transaction_count self.«from» Block.latest = .ok m ∧
      self.nonce.getD m = m)
    (hgas : self.gas = none → ∃ g, eth.estimate_gas self Block.pending = .ok g)
    (hfh : eth.fee_history = .ok fh)
    (hshort : fh.base_fee_per_gas.get? 1 = none) :
    TransactionRequest.fill self eth =
      .error (.panicked "index out of bounds: base_fee_per_gas[1]") := by
  obtain ⟨c, hcid, hcgetd⟩ := hchain
  obtain ⟨m, hcount, hngetd⟩ := hnonce
  have hbf := Batch.base_fee_short eth fh hfh hshort
  simp only [TransactionRequest.fill]
  rw [if_neg (not_not_intro (.inl hgp)), hexec]
  dsimp only []
  rw [hcid]
  dsimp only [awaitQ]
  rw [if_neg (not_ne_iff.mpr hcgetd), hcount]
  dsimp only []
  rw [if_neg (not_ne_iff.mpr hngetd)]
  have hfg : ∃ selfG, TransactionRequest.fillGas (TransactionRequest.gasCall self eth)
      { self with
        chain_id := some (self.chain_id.getD c),
        nonce := some (self.nonce.getD m) } = .ok selfG ∧
      selfG.gas_price = self.gas_price ∧
      selfG.max_fee_per_gas = self.max_fee_per_gas ∧
      selfG.max_priority_fee_per_gas = self.max_priority_fee_per_gas := by
    rcases hg : self.gas with _ | g0
    · obtain ⟨g, hge⟩ := hgas hg
      refine ⟨{ self with
        chain_id := some (self.chain_id.getD c),
        nonce := some (self.nonce.getD m),
        gas := some g }, ?_, rfl, rfl, rfl⟩
      rw [TransactionRequest.gasCall, hg]
      dsimp only []
      rw [TransactionRequest.fillGas, hge]
      dsimp only [awaitQ]
    · refine ⟨{ self with
        chain_id := some (self.chain_id.getD c),
        nonce := some (self.nonce.getD m) }, ?_, rfl, rfl, rfl⟩
      rw [TransactionRequest.gasCall, hg]
      dsimp only []
      rw [TransactionRequest.fillGas]
  obtain ⟨selfG, hfg1, hsg1, hsg2, hsg3⟩ := hfg
  rw [hfg1]
  dsimp only []
  rcases hmp : self.max_priority_fee_per_gas with _ | mp0
  · rw [TransactionRequest.gasPriceCall, TransactionRequest.baseFeeCall,
      TransactionRequest.maxPriorityCall, hgp, hmf, hmp]
    dsimp only []
    rw [hbf, TransactionRequest.fillFees_panic_eq1]
  · rw [TransactionRequest.gasPriceCall, TransactionRequest.baseFeeCall,
      TransactionRequest.maxPriorityCall, hgp, hmf, hmp]
    dsimp only []
    rw [hbf, TransactionRequest.fillFees_panic_eq2]

/-- Upstream answers whose baseFeePerGas array has only one entry. -/
def fillDemoShortEnv : Fetched :=
  ⟨.ok (), .ok 1, fun _ _ => .ok 5, fun _ _ => .ok 21000, .ok 2,
   .ok ⟨[3], [], 0, none⟩, .ok 1⟩

/-- Witness for the C9 theorem at the demonstration inputs. -/
theorem fill_short_base_fee_panics_witness :
    TransactionRequest.fill fillDemoRequest fillDemoShortEnv =
      .error (.panicked "index out of bounds: base_fee_per_gas[1]") :=
  fill_short_base_fee_panics fillDemoRequest fillDemoShortEnv ⟨[3], [], 0, none⟩
    rfl rfl rfl ⟨1, rfl, rfl⟩ ⟨5, rfl, rfl⟩ (fun _ => ⟨21000, rfl⟩) rfl rfl

/-- serde_json value indexing (value[key]): the member of an object, or
null for a missing member or a non-object. -/
def JsonValue.index (j : JsonValue) (k : String) : JsonValue :=
  match j with
  | .obj fields => (JsonValue.lookupField fields k).getD .null
  | _ => .null

/-- One digit of the given radix (0-9, a-f, A-F as U256::from_str_radix
accepts). -/
def digitVal (radix : Nat) (ch : Char) : Option Nat :=
  let v :=
    if ch.toNat ≥ 48 ∧ ch.toNat ≤ 57 then some (ch.toNat - 48)
    else if ch.toNat ≥ 97 ∧ ch.toNat ≤ 102 then some (ch.toNat - 87)
    else if ch.toNat ≥ 65 ∧ ch.toNat ≤ 70 then some (ch.toNat - 55)
    else none
  match v with
  | some d => if d < radix then some d else none
  | none => none

/-- U256::from_str_radix: non-empty digit string in the radix, value
below 2^256. -/
def natFromStrRadix (radix : Nat) (s : List Char) : Option Nat :=
  if s.isEmpty then none
  else
    (s.foldl (fun acc ch =>
      match acc with
      | none => none
      | some n => (digitVal radix ch).map (fun d => n * radix + d)) (some 0)).bind
      (fun n => if n < U256.size then some n else none)

/-- The permissive domain chainId extraction of the TypedData
deserializer (typeddata.rs lines 77-92): absent or null is None; an
unsigned 64-bit JSON number is accepted; a string is parsed as hex when
0x-prefixed and as decimal otherwise; anything else is a decode
error. -/
def parseDomainChainId (raw : JsonValue) : Except String (Option Quantity) :=
  match (raw.index "domain").index "chainId" with
  | .null => .ok none
  | .num q =>
    if q.den = 1 ∧ 0 ≤ q.num ∧ q.num < (2 : Int) ^ 64 then .ok (some q.num.toNat)
    else .error "invalid chain ID value in domain"
  | .str s =>
    let parsed :=
      match s.data with
      | '0' :: 'x' :: rest => natFromStrRadix 16 rest
      | chars => natFromStrRadix 10 chars
    match parsed with
    | some n => .ok (some n)
    | none => .error "invalid digit found in string"
  | _ => .error "invalid chain ID value in domain"

/-- EIP-712 typed data (node/typeddata.rs TypedData): the raw JSON blob
kept for re-serialization and logging, and the chain id extracted from
domain.chainId.  The hdwallet::typeddata::TypedData inner value used
for digest computation is an external collaborator and is never
inspected by the embedded code. -/
structure TypedData where
  raw : JsonValue
  chain_id : Option Quantity

/-- The TypedData deserializer (typeddata.rs lines 67-99), with the
external hdwallet structural parse of the inner value out of scope. -/
def TypedData.fromJson (raw : JsonValue) : Except String TypedData :=
  match parseDomainChainId raw with
  | .error e => .error e
  | .ok chain_id => .ok ⟨raw, chain_id⟩

/-- The Eth client as the typed-data path sees it: chain_id() resolves
to the cached or fetched chain id. -/
structure Eth where
  chain_id : Except String Quantity

/-- TypedData::verify (typeddata.rs lines 30-42): when the typed data
carries a chain id, it must equal the node's. -/
def TypedData.verify (td : TypedData) (eth : Eth) : Except AnyhowError Unit :=
  match td.chain_id with
  | none => .ok ()
  | some c =>
    match eth.chain_id with
    | .error e => .error (.msg e)
    | .ok n =>
      if c = n then .ok ()
      else .error (.msg "chain ID used for signing does not match node")

/-- The Signing capability (signer.rs trait Signing), as the behaviour
of a trait object. -/
structure Signing where
  accounts : List Address
  sign_message : Address → List Nat → Except AnyhowError Signature
  sign_transaction : Address → Transaction → Except AnyhowError Signature
  sign_typed_data : Address → TypedData → Except AnyhowError Signature

/-- LogRecorder (signer/log_recorder.rs): delegate every call, emit an
info log on success (a pure no-op here) and hand the inner signature
through unchanged. -/
def LogRecorder (inner : Signing) : Signing where
  accounts := inner.accounts
  sign_message := fun account message =>
    match inner.sign_message account message with
    | .ok signature => .ok signature
    | .error e => .error e
  sign_transaction := fun account transaction =>
    match inner.sign_transaction account transaction with
    | .ok signature => .ok signature
    | .error e => .error e
  sign_typed_data := fun account typed_data =>
    match inner.sign_typed_data account typed_data with
    | .ok signature => .ok signature
    | .error e => .error e

/-- The three validation hooks of the embedded Lua module: absent means
the named global is missing; a present hook receives the account and
the data (the Lua runtime and the JSON view it receives are external,
so the hook is an arbitrary function of the typed inputs) and yields
the returned boolean or an engine error. -/
structure LuaHooks where
  validate_message : Option (Address → List Nat → Except String Bool)
  validate_transaction : Option (Address → Transaction → Except String Bool)
  validate_typed_data : Option (Address → TypedData → Except String Bool)

/-- Validator::validate for the message hook (validator.rs lines
52-66): a missing handler, an engine error, or a false return abort
with an anyhow message error; a true return passes. -/
def Validator.validate_message (hooks : LuaHooks) (account : Address)
    (message : List Nat) : Except AnyhowError Unit :=
  match hooks.validate_message with
  | none => .error (.msg "missing validate_message handler in module")
  | some f =>
    match f account message with
    | .error e => .error (.msg e)
    | .ok true => .ok ()
    | .ok false => .error (.msg "handler validate_message denied signature")

/-- Validator::validate for the transaction hook. -/
def Validator.validate_transaction (hooks : LuaHooks) (account : Address)
    (transaction : Transaction) : Except AnyhowError Unit :=
  match hooks.validate_transaction with
  | none => .error (.msg "missing validate_transaction handler in module")
  | some f =>
    match f account transaction with
    | .error e => .error (.msg e)
    | .ok true => .ok ()
    | .ok false => .error (.msg "handler validate_transaction denied signature")

/-- Validator::validate for the typed-data hook. -/
def Validator.validate_typed_data (hooks : LuaHooks) (account : Address)
    (typed_data : TypedData) : Except AnyhowError Unit :=
  match hooks.validate_typed_data with
  | none => .error (.msg "missing validate_typed_data handler in module")
  | some f =>
    match f account typed_data with
    | .error e => .error (.msg e)
    | .ok true => .ok ()
    | .ok false => .error (.msg "handler validate_typed_data denied signature")

/-- Validator as a Signing implementation (validator.rs lines 81-103):
validate first and delegate to the inner signer only on success. -/
def Validator.signing (hooks : LuaHooks) (inner : Signing) : Signing where
  accounts := inner.accounts
  sign_message := fun account message =>
    match Validator.validate_message hooks account message with
    | .error e => .error e
    | .ok () => inner.sign_message account message
  sign_transaction := fun account transaction =>
    match Validator.validate_transaction hooks account transaction with
    | .error e => .error e
    | .ok () => inner.sign_transaction account transaction
  sign_typed_data := fun account typed_data =>
    match Validator.validate_typed_data hooks account typed_data with
    | .error e => .error e
    | .ok () => inner.sign_typed_data account typed_data

/-- Big-endian bytes of a number at a fixed width (the r and s words of
a signature). -/
def natToBytesBE (width n : Nat) : List Nat :=
  (List.range width).map (fun i => n / 256 ^ (width - 1 - i) % 256)

/-- Bytes::from_signature (serialization.rs lines 20-29): the 65-byte
r ++ s ++ v concatenation. -/
def Bytes.from_signature (sig : Signature) : List Nat :=
  natToBytesBE 32 sig.r ++ natToBytesBE 32 sig.s ++ [sig.v % 256]

/-- 0x-prefixed lowercase hex of a byte string (the Bytes serializer of
serialization.rs). -/
def hexOfBytes (bytes : List Nat) : String :=
  "0x" ++ String.mk (bytes.flatMap (fun b => [Nat.digitChar (b / 16 % 16), Nat.digitChar (b % 16)]))

/-- The eth_signTypedData handler closure (node.rs lines 223-230) at
the typed-parameter level: sign the typed data with the node's signer
and hex-encode the 65-byte signature; an anyhow error goes through the
From conversion.  The handler makes no call to TypedData::verify and
consults no chain id. -/
def signTypedDataArm (signer : Signing) (account : Address)
    (typed_data : TypedData) : Except Jsonrpc.Error JsonValue :=
  match signer.sign_typed_data account typed_data with
  | .error e => .error (Jsonrpc.Error.fromAnyhow e)
  | .ok signature => .ok (.str (hexOfBytes (Bytes.from_signature signature)))

/-- The outcome of running a typed handler closure: a result value, a
JSON-RPC error (after the anyhow conversion), or a task-aborting
panic. -/
inductive ArmResult where
  | value (v : JsonValue)
  | failed (e : Jsonrpc.Error)
  | panicked (s : String)

/-- The eth_sendTransaction / eth_signTransaction handler closure
(node.rs lines 195-213) at the typed-parameter level: fill the request
against the upstream answers, sign, and hex-encode the signed RLP
encoding; the RLP encoder of the hdwallet crate is the external
`encode` argument.  A panic aborts the task; a recoverable error goes
through the From conversion. -/
def sendTransactionArm (signer : Signing) (eth : Fetched)
    (encode : Transaction → Signature → List Nat)
    (transaction : TransactionRequest) : ArmResult :=
  match transaction.fill eth with
  | .error (.panicked s) => .panicked s
  | .error (.err e) => .failed (Jsonrpc.Error.fromAnyhow e)
  | .ok (account, tx) =>
    match signer.sign_transaction account tx with
    | .error e => .failed (Jsonrpc.Error.fromAnyhow e)
    | .ok signature => .value (.str (hexOfBytes (encode tx signature)))

/-- C10: the LogRecorder and Validator decorators are transparent on
success: the decorated accounts list is the inner accounts list, and
every successful sign_message / sign_transaction / sign_typed_data call
returns exactly the signature the inner signer produced for the same
arguments. -/
theorem decorators_transparent :
    (∀ inner : Signing, (LogRecorder inner).accounts = inner.accounts) ∧
    (∀ (inner : Signing) a m sig, (LogRecorder inner).sign_message a m = .ok sig →
      inner.sign_message a m = .ok sig) ∧
    (∀ (inner : Signing) a t sig,
      (LogRecorder inner).sign_transaction a t = .ok sig →
      inner.sign_transaction a t = .ok sig) ∧
    (∀ (inner : Signing) a td sig,
      (LogRecorder inner).sign_typed_data a td = .ok sig →
      inner.sign_typed_data a td = .ok sig) ∧
    (∀ (hooks : LuaHooks) (inner : Signing),
      (Validator.signing hooks inner).accounts = inner.accounts) ∧
    (∀ (hooks : LuaHooks) (inner : Signing) a m sig,
      (Validator.signing hooks inner).sign_message a m = .ok sig →
      inner.sign_message a m = .ok sig) ∧
    (∀ (hooks : LuaHooks) (inner : Signing) a t sig,
      (Validator.signing hooks inner).sign_transaction a t = .ok sig →
      inner.sign_transaction a t = .ok sig) ∧
    (∀ (hooks : LuaHooks) (inner : Signing) a td sig,
      (Validator.signing hooks inner).sign_typed_data a td = .ok sig →
      inner.sign_typed_data a td = .ok sig) := by
  refine ⟨fun _ => rfl, ?_, ?_, ?_, fun _ _ => rfl, ?_, ?_, ?_⟩
  · intro inner a m sig h
    rw [LogRecorder] at h
    dsimp only [] at h
    rcases hi : inner.sign_message a m with e | s <;> rw [hi] at h
    · cases h
    · cases h
      rfl
  · intro inner a t sig h
    rw [LogRecorder] at h
    dsimp only [] at h
    rcases hi : inner.sign_transaction a t with e | s <;> rw [hi] at h
    · cases h
    · cases h
      rfl
  · intro inner a td sig h
    rw [LogRecorder] at h
    dsimp only [] at h
    rcases hi : inner.sign_typed_data a td with e | s <;> rw [hi] at h
    · cases h
    · cases h
      rfl
  · intro hooks inner a m sig h
    rw [Validator.signing] at h
    dsimp only [] at h
    rcases hv : Validator.validate_message hooks a m with e | u <;> rw [hv] at h
    · cases h
    · exact h
  · intro hooks inner a t sig h
    rw [Validator.signing] at h
    dsimp only [] at h
    rcases hv : Validator.validate_transaction hooks a t with e | u <;> rw [hv] at h
    · cases h
    · exact h
  · intro hooks inner a td sig h
    rw [Validator.signing] at h
    dsimp only [] at h
    rcases hv : Validator.validate_typed_data hooks a td with e | u <;> rw [hv] at h
    · cases h
    · exact h

/-- A concrete inner signer for the decorator witnesses. -/
def demoSigner : Signing :=
  ⟨[⟨1⟩], fun _ _ => .ok ⟨1, 2, 3⟩, fun _ _ => .ok ⟨1, 2, 3⟩, fun _ _ => .ok ⟨1, 2, 3⟩⟩

/-- Hooks that allow every signature. -/
def allowAllHooks : LuaHooks :=
  ⟨some (fun _ _ => .ok true), some (fun _ _ => .ok true), some (fun _ _ => .ok true)⟩

/-- Witness for the C10 theorem: the validator-decorated demo signer
succeeded on a message, so the inner signer produced that signature. -/
theorem decorators_transparent_witness :
    demoSigner.sign_message ⟨1⟩ [] = .ok ⟨1, 2, 3⟩ :=
  decorators_transparent.2.2.2.2.2.1 allowAllHooks demoSigner ⟨1⟩ [] ⟨1, 2, 3⟩ rfl

/-- A typed data whose domain carries chainId 2. -/
def demoTypedRaw : JsonValue :=
  .obj [("domain", .obj [("chainId", .num 2)]), ("types", .obj []),
    ("primaryType", .str "EIP712Domain"), ("message", .obj [])]

/-- The parsed demo typed data. -/
def demoTypedData : TypedData :=
  ⟨demoTypedRaw, some 2⟩

/-- A node whose chain id is 1, mismatching the demo typed data. -/
def demoEth : Eth :=
  ⟨.ok 1⟩

/-- C2: the eth_signTypedData handler signs without checking the domain
chain id.  At a typed data whose domain chainId (2) differs from the
node's chain id (1), TypedData::verify - defined for exactly this check
but never called by mux_handler - fails, while the handler arm succeeds
and returns the signature; the handler consults no chain id at all. -/
theorem sign_typed_data_skips_verification :
    TypedData.fromJson demoTypedRaw = .ok demoTypedData ∧
    TypedData.verify demoTypedData demoEth =
      .error (.msg "chain ID used for signing does not match node") ∧
    signTypedDataArm demoSigner ⟨1⟩ demoTypedData =
      .ok (.str (hexOfBytes (Bytes.from_signature ⟨1, 2, 3⟩))) :=
  ⟨rfl, rfl, rfl⟩

/-- Conflicting fee fields abort fill with the conflict message. -/
theorem fill_fee_conflict_eval (self : TransactionRequest) (eth : Fetched)
    (hcond : ¬(self.gas_price = none ∨
      (self.max_fee_per_gas = none ∧ self.max_priority_fee_per_gas = none))) :
    TransactionRequest.fill self eth =
      .error (.err (.msg "specified both gas price and London gas parameters")) := by
  simp only [TransactionRequest.fill]
  rw [if_pos hcond]

/-- A chain id differing from the node's aborts fill with the mismatch
message. -/
theorem fill_chain_mismatch_eval (self : TransactionRequest) (eth : Fetched)
    (c : Quantity)
    (hconf : self.gas_price = none ∨
      (self.max_fee_per_gas = none ∧ self.max_priority_fee_per_gas = none))
    (hexec : eth.batch_execute = .ok ())
    (hcid : eth.chain_id = .ok c)
    (hchk : self.chain_id.getD c ≠ c) :
    TransactionRequest.fill self eth =
      .error (.err (.msg "chain ID used for signing does not match node")) := by
  simp only [TransactionRequest.fill]
  rw [if_neg (not_not_intro hconf), hexec]
  dsimp only []
  rw [hcid]
  dsimp only [awaitQ]
  rw [if_pos hchk]

/-- A nonce differing from the node's transaction count aborts fill
with the nonce message. -/
theorem fill_nonce_mismatch_eval (self : TransactionRequest) (eth : Fetched)
    (c m : Quantity)
    (hconf : self.gas_price = none ∨
      (self.max_fee_per_gas = none ∧ self.max_priority_fee_per_gas = none))
    (hexec : eth.batch_execute = .ok ())
    (hcid : eth.chain_id = .ok c)
    (hcgetd : self.chain_id.getD c = c)
    (hcount : eth.transaction_count self.«from» Block.latest = .ok m)
    (hnchk : self.nonce.getD m ≠ m) :
    TransactionRequest.fill self eth =
      .error (.err (.msg ("only signing transactions for current nonce (" ++
        hexQuantity m ++ ") permitted"))) := by
  simp only [TransactionRequest.fill]
  rw [if_neg (not_not_intro hconf), hexec]
  dsimp only []
  rw [hcid]
  dsimp only [awaitQ]
  rw [if_neg (not_ne_iff.mpr hcgetd), hcount]
  dsimp only []
  rw [if_pos hnchk]

/-- Validator::validate errors are always message errors (never an
UnknownSignerError): a missing handler, an engine error and a denial
all produce anyhow message errors. -/
theorem Validator.validate_message_err (hooks : LuaHooks) (a : Address)
    (m : List Nat) (e : AnyhowError)
    (h : Validator.validate_message hooks a m = .error e) :
    ∃ s, e = .msg s := by
  rw [Validator.validate_message] at h
  rcases hh : hooks.validate_message with _ | f <;> rw [hh] at h <;> dsimp only [] at h
  · cases h
    exact ⟨_, rfl⟩
  ·
    rcases hf : f a m with e2 | b <;> rw [hf] at h
    · cases h
      exact ⟨_, rfl⟩
    · rcases b <;> dsimp only [] at h
      · cases h
        exact ⟨_, rfl⟩
      · cases h

theorem Validator.validate_transaction_err (hooks : LuaHooks) (a : Address)
    (t : Transaction) (e : AnyhowError)
    (h : Validator.validate_transaction hooks a t = .error e) :
    ∃ s, e = .msg s := by
  rw [Validator.validate_transaction] at h
  rcases hh : hooks.validate_transaction with _ | f <;> rw [hh] at h <;> dsimp only [] at h
  · cases h
    exact ⟨_, rfl⟩
  ·
    rcases hf : f a t with e2 | b <;> rw [hf] at h
    · cases h
      exact ⟨_, rfl⟩
    · rcases b <;> dsimp only [] at h
      · cases h
        exact ⟨_, rfl⟩
      · cases h

theorem Validator.validate_typed_data_err (hooks : LuaHooks) (a : Address)
    (td : TypedData) (e : AnyhowError)
    (h : Validator.validate_typed_data hooks a td = .error e) :
    ∃ s, e = .msg s := by
  rw [Validator.validate_typed_data] at h
  rcases hh : hooks.validate_typed_data with _ | f <;> rw [hh] at h <;> dsimp only [] at h
  · cases h
    exact ⟨_, rfl⟩
  ·
    rcases hf : f a td with e2 | b <;> rw [hf] at h
    · cases h
      exact ⟨_, rfl⟩
    · rcases b <;> dsimp only [] at h
      · cases h
        exact ⟨_, rfl⟩
      · cases h

/-- C1 (amended): the anyhow-to-JSON-RPC conversion yields -32602
(invalid params) exactly for unknown-signer errors; client
inconsistencies - conflicting fee fields, a chain-id mismatch, a nonce
mismatch - and policy (Validator) rejections are message errors and
therefore surface as -32603 (internal error) on the transaction-signing
handler. -/
theorem error_code_mapping :
    Jsonrpc.Error.internalError.code = -32603 ∧
    Jsonrpc.Error.invalidParams.code = -32602 ∧
    (∀ e : AnyhowError, Jsonrpc.Error.fromAnyhow e = Jsonrpc.Error.invalidParams ↔
      ∃ acct, e = .unknownSigner acct) ∧
    (∀ (signer : Signing) (eth : Fetched) (encode : Transaction → Signature → List Nat)
      (self : TransactionRequest),
      ¬(self.gas_price = none ∨
        (self.max_fee_per_gas = none ∧ self.max_priority_fee_per_gas = none)) →
      sendTransactionArm signer eth encode self = .failed Jsonrpc.Error.internalError) ∧
    (∀ (signer : Signing) (eth : Fetched) (encode : Transaction → Signature → List Nat)
      (self : TransactionRequest) (c : Quantity),
      (self.gas_price = none ∨
        (self.max_fee_per_gas = none ∧ self.max_priority_fee_per_gas = none)) →
      eth.batch_execute = .ok () → eth.chain_id = .ok c → self.chain_id.getD c ≠ c →
      sendTransactionArm signer eth encode self = .failed Jsonrpc.Error.internalError) ∧
    (∀ (signer : Signing) (eth : Fetched) (encode : Transaction → Signature → List Nat)
      (self : TransactionRequest) (c m : Quantity),
      (self.gas_price = none ∨
        (self.max_fee_per_gas = none ∧ self.max_priority_fee_per_gas = none)) →
      eth.batch_execute = .ok () → eth.chain_id = .ok c → self.chain_id.getD c = c →
      eth.transaction_count self.«from» Block.latest = .ok m →
      self.nonce.getD m ≠ m →
      sendTransactionArm signer eth encode self = .failed Jsonrpc.Error.internalError) ∧
    (∀ (hooks : LuaHooks) (inner : Signing) a m e,
      Validator.validate_message hooks a m = .error e →
      (Validator.signing hooks inner).sign_message a m = .error e ∧
      (Jsonrpc.Error.fromAnyhow e).code = -32603) ∧
    (∀ (hooks : LuaHooks) (inner : Signing) a t e,
      Validator.validate_transaction hooks a t = .error e →
      (Validator.signing hooks inner).sign_transaction a t = .error e ∧
      (Jsonrpc.Error.fromAnyhow e).code = -32603) ∧
    (∀ (hooks : LuaHooks) (inner : Signing) a td e,
      Validator.validate_typed_data hooks a td = .error e →
      (Validator.signing hooks inner).sign_typed_data a td = .error e ∧
      (Jsonrpc.Error.fromAnyhow e).code = -32603) := by
  refine ⟨rfl, rfl, ?_, ?_, ?_, ?_, ?_, ?_, ?_⟩
  · intro e
    constructor
    · intro h
      rcases e with acct | s
      · exact ⟨acct, rfl⟩
      · cases h
    · rintro ⟨acct, rfl⟩
      rfl
  · intro signer eth encode self hcond
    rw [sendTransactionArm, fill_fee_conflict_eval self eth hcond]
    rfl
  · intro signer eth encode self c hconf hexec hcid hchk
    rw [sendTransactionArm, fill_chain_mismatch_eval self eth c hconf hexec hcid hchk]
    rfl
  · intro signer eth encode self c m hconf hexec hcid hcgetd hcount hnchk
    rw [sendTransactionArm,
      fill_nonce_mismatch_eval self eth c m hconf hexec hcid hcgetd hcount hnchk]
    rfl
  · intro hooks inner a m e hv
    obtain ⟨s, rfl⟩ := Validator.validate_message_err hooks a m e hv
    constructor
    · rw [Validator.signing]
      dsimp only []
      rw [hv]
    · rfl
  · intro hooks inner a t e hv
    obtain ⟨s, rfl⟩ := Validator.validate_transaction_err hooks a t e hv
    constructor
    · rw [Validator.signing]
      dsimp only []
      rw [hv]
    · rfl
  · intro hooks inner a td e hv
    obtain ⟨s, rfl⟩ := Validator.validate_typed_data_err hooks a td e hv
    constructor
    · rw [Validator.signing]
      dsimp only []
      rw [hv]
    · rfl

/-- C1 counterexample: a nonce mismatch - a client inconsistency the
claim assigns to -32602 - produces the internal error -32603 on the
transaction-signing handler. -/
theorem error_code_counterexample :
    sendTransactionArm demoSigner fillDemoEnv (fun _ _ => []) fillDemoBadNonce =
      .failed Jsonrpc.Error.internalError ∧
    Jsonrpc.Error.internalError.code = -32603 ∧
    Jsonrpc.Error.internalError.code ≠ -32602 :=
  ⟨rfl, rfl, by decide⟩

/-- Witness for the amended C1 theorem at the concrete mismatching
nonce. -/
theorem error_code_mapping_witness :
    sendTransactionArm demoSigner fillDemoEnv (fun _ _ => []) fillDemoBadNonce =
      .failed Jsonrpc.Error.internalError :=
  error_code_mapping.2.2.2.2.2.1 demoSigner fillDemoEnv (fun _ _ => [])
    fillDemoBadNonce 1 5 (.inl rfl) rfl rfl rfl rfl (by decide)
